import Mathlib

/-!
Verification development for the smart-glasses camera/detection frontend.

The definitions below are a shallow embedding of the JavaScript sources:

* `src/frontend/src/hooks/useDetection.js` — WebSocket detection channel,
  single-flight frame scheduler, reconnect policy, bounded histories;
* `src/frontend/src/hooks/useCamera.js` — camera lifecycle and auto-recovery;
* `src/frontend/src/components/DetectionTerminal.jsx` — unified event timeline;
* `src/utils/canvasUtils.js` (unnamed part_003) — overlay coordinate transforms;
* `src/hooks/useCanvasDrawing.js` (unnamed part_001) and the legacy monolithic
  `CameraFeed` (unnamed part_000) — bounding-box display transforms;
* `src/constants/config.js` (unnamed part_003) — configuration constants.

Machine state that lives in React `useState`/`useRef` cells is modelled as an
explicit record (`DetState`), and the timer ticks plus asynchronous callbacks
are modelled as an event type (`Ev`) with a deterministic `step` function, so
that a run of the hook is a fold of `step` over an arbitrary event list.
-/

namespace SmartGlasses

/-! ### Configuration constants (constants/config.js) -/

/-- DETECTION_LIMITS.MAX_DETECTIONS from config.js. -/
def MAX_DETECTIONS : Nat := 50

/-- DETECTION_LIMITS.MAX_OCR_DETECTIONS from config.js. -/
def MAX_OCR_DETECTIONS : Nat := 50

/-- DETECTION_LIMITS.MAX_LOGS from config.js. -/
def MAX_LOGS : Nat := 100

/-- maxReconnectAttempts in useDetection.js. -/
def maxReconnectAttempts : Nat := 5

/-- reconnectDelay (ms) in useDetection.js. -/
def reconnectDelay : Nat := 3000

/-! ### Bounded histories

`xs.slice(-n)` in JavaScript keeps the last `min n xs.length` elements.
Every history update in useDetection.js has the shape
`[...prev, ...batch].slice(-CAP)`. -/

/-- JavaScript `l.slice(-n)`: the suffix of the last `min n l.length` elements. -/
def sliceLast (n : Nat) (l : List α) : List α := l.drop (l.length - n)

/-- One history update from useDetection.js: `[...prev, ...batch].slice(-cap)`. -/
def pushH (cap : Nat) (prev batch : List α) : List α := sliceLast cap (prev ++ batch)

/-! ### Log and detection entries -/

/-- A backend log entry as stored by useDetection.js: `{text, timestamp}`. -/
structure LogEntry where
  text : String
  timestamp : Nat
deriving Repr, DecidableEq

/-- A history entry for YOLO or OCR detections: the raw payload (kept opaque
as a string) together with the arrival timestamp spread in by the handler. -/
structure Timed where
  payload : String
  timestamp : Nat
deriving Repr, DecidableEq

/-! ### Inbound protocol messages (ws.onmessage dispatch in useDetection.js) -/

/-- Parsed inbound WebSocket message, dispatched on its `type` tag.
`result` carries optional backend logs, the YOLO detection list
(`data.yolo_result?.detections || []`) and the OCR text-detection list
(`data.paddleocr_result?.text_detections || []`); payloads are opaque. -/
inductive InMsg where
  | connected : InMsg
  | result : Option (List String) → List String → List String → InMsg
  | error : String → InMsg
  | pong : InMsg
  | unknown : InMsg
deriving Repr, DecidableEq

/-! ### Outbound wire format (captureAndDetect in useDetection.js)

The frame submission is `JSON.stringify({type: 'frame', image: imageData})`;
the JSON object is modelled as an association list of its fields in order. -/

/-- The outbound frame message object, as a field association list. -/
def frameMessage (imageData : String) : List (String × String) :=
  [("type", "frame"), ("image", imageData)]

/-! ### Overlay coordinate transforms (canvasUtils.js, useCanvasDrawing.js,
legacy CameraFeed drawBoxes) -/

/-- calculateScaleFactors from canvasUtils.js. -/
def calculateScaleFactors (videoDisplayWidth videoDisplayHeight videoActualWidth videoActualHeight : ℚ) : ℚ × ℚ :=
  (videoDisplayWidth / videoActualWidth, videoDisplayHeight / videoActualHeight)

/-- scaleAndFlipX from canvasUtils.js: `flipImage ? x*scaleX : W - x*scaleX`. -/
def scaleAndFlipX (x scaleX videoDisplayWidth : ℚ) (flipImage : Bool) : ℚ :=
  if flipImage then x * scaleX else videoDisplayWidth - x * scaleX

/-- A source-frame bounding box `{x1, y1, x2, y2}`. -/
structure BBox where
  x1 : ℚ
  y1 : ℚ
  x2 : ℚ
  y2 : ℚ
deriving Repr, DecidableEq

/-- A display-space box produced by the overlay renderers. -/
structure DispBox where
  x1 : ℚ
  y1 : ℚ
  x2 : ℚ
  y2 : ℚ
deriving Repr, DecidableEq

/-- The YOLO box transform of useCanvasDrawing.js (unnamed part_001,
lines 117-133): when `flipImage` is false each x endpoint goes through
`scaleAndFlipX` individually and the endpoints are not swapped. -/
def drawBoxesTransform (b : BBox) (scaleX scaleY videoDisplayWidth : ℚ) (flipImage : Bool) : DispBox :=
  { x1 := if flipImage then b.x1 * scaleX else scaleAndFlipX b.x1 scaleX videoDisplayWidth false
    y1 := b.y1 * scaleY
    x2 := if flipImage then b.x2 * scaleX else scaleAndFlipX b.x2 scaleX videoDisplayWidth false
    y2 := b.y2 * scaleY }

/-- The YOLO box transform of the legacy monolithic CameraFeed (unnamed
part_000, lines 510-530): when `flipImage` is false the mirrored endpoints
are swapped, `x1' = W - x2*scaleX` and `x2' = W - x1*scaleX`. -/
def drawBoxesTransformLegacy (b : BBox) (scaleX scaleY videoDisplayWidth : ℚ) (flipImage : Bool) : DispBox :=
  { x1 := if flipImage then b.x1 * scaleX else videoDisplayWidth - b.x2 * scaleX
    y1 := b.y1 * scaleY
    x2 := if flipImage then b.x2 * scaleX else videoDisplayWidth - b.x1 * scaleX
    y2 := b.y2 * scaleY }

/-! ### The detection/camera state machine

One record holds the React state and refs of useDetection.js and useCamera.js,
plus ghost instrumentation counters (outstanding frames, frames sent, connect
calls, camera restarts, scheduled retries, last close code issued) that record
the externally observable actions without influencing any branch. -/

/-- Status of `wsRef.current`. `closed` means no live socket (null ref). -/
inductive WsSt where
  | closed : WsSt
  | connecting : WsSt
  | opened : WsSt
deriving Repr, DecidableEq

/-- The combined mutable state of useDetection.js and useCamera.js. -/
structure DetState where
  /-- isProcessing / isProcessingRef (set together in the source). -/
  processing : Bool
  /-- isConnected React state. -/
  connected : Bool
  /-- status of wsRef.current. -/
  wsConn : WsSt
  /-- reconnectAttemptsRef.current. -/
  attempts : Nat
  /-- pending reconnect setTimeout (reconnectTimeoutRef): its delay in ms. -/
  retryTimer : Option Nat
  /-- retry setTimeouts that are still pending but no longer tracked:
  ws.onclose overwrites reconnectTimeoutRef without a clearTimeout, so a
  previously scheduled, still-pending timer keeps running untracked. -/
  leakedTimers : Nat
  /-- detectionIntervalRef: whether the capture interval is armed. -/
  intervalActive : Bool
  /-- cameraStoppedRef.current. -/
  camStopped : Bool
  /-- isStreaming React state of useCamera. -/
  camStreaming : Bool
  /-- a pending 1s camera-recovery setTimeout from a track/video event. -/
  camRestartTimer : Bool
  /-- backendLogs, capped at MAX_LOGS. -/
  backendLogs : List LogEntry
  /-- detections history, capped at MAX_DETECTIONS. -/
  detections : List Timed
  /-- ocrTextDetections history, capped at MAX_OCR_DETECTIONS. -/
  ocrDetections : List Timed
  /-- currentFrameDetections (raw payloads, no timestamps in the source). -/
  currentDets : List String
  /-- currentFrameOcrDetections. -/
  currentOcr : List String
  /-- ghost: frames sent whose result or error has not yet arrived. -/
  outstanding : Nat
  /-- ghost: total ws.send calls carrying a frame. -/
  framesSent : Nat
  /-- ghost: total connectWebSocket invocations that created a socket. -/
  connectCalls : Nat
  /-- ghost: total camera auto-restart attempts that reached getUserMedia. -/
  camStartCalls : Nat
  /-- ghost: total reconnect setTimeout calls scheduled. -/
  schedCount : Nat
  /-- ghost: the close code passed to the last ws.close issued locally. -/
  lastCloseIssued : Option Nat
deriving Repr, DecidableEq

/-- The state of the freshly mounted hooks: everything empty and idle. -/
def initState : DetState :=
  { processing := false
    connected := false
    wsConn := WsSt.closed
    attempts := 0
    retryTimer := none
    leakedTimers := 0
    intervalActive := false
    camStopped := false
    camStreaming := false
    camRestartTimer := false
    backendLogs := []
    detections := []
    ocrDetections := []
    currentDets := []
    currentOcr := []
    outstanding := 0
    framesSent := 0
    connectCalls := 0
    camStartCalls := 0
    schedCount := 0
    lastCloseIssued := none }

/-- Timer ticks and asynchronous callbacks interleaving on the event loop.
`tick` carries whether the video element passed its readiness checks and
whether the synchronous canvas/send block succeeded (its catch clause),
`recv`/`wsOpen`/`wsClose` carry the ambient `Date.now()` of the callback. -/
inductive Ev where
  | tick : Bool → Bool → Ev
  | startInterval : Ev
  | wsOpen : Nat → Ev
  | recv : InMsg → Nat → Ev
  | wsClose : Nat → Nat → Ev
  | retryFire : Ev
  | leakedRetryFire : Ev
  | trackEnded : Ev
  | trackError : Ev
  | camRestartFire : Ev
  | userStop : Ev
deriving Repr, DecidableEq

/-- connectWebSocket: returns early if the socket is already open, otherwise
creates a fresh WebSocket (state `connecting`). -/
def connectWS (s : DetState) : DetState :=
  if s.wsConn = WsSt.opened then s
  else { s with wsConn := WsSt.connecting, connectCalls := s.connectCalls + 1 }

/-- One interval tick running captureAndDetect: skip if the interval is gone,
a submission is in flight, or the video is not ready; if the socket is not
open, optionally kick off a connect and drop the frame; otherwise mark
processing before the send and submit exactly one frame.  `sendOk = false`
models the catch clause of the synchronous block: the flag is set and then
reset inside the same tick and no frame goes out. -/
def stepTick (videoReady sendOk : Bool) (s : DetState) : DetState :=
  if s.intervalActive = false then s
  else if s.processing then s
  else if videoReady = false then s
  else if s.wsConn ≠ WsSt.opened then
    (if s.connected = false then connectWS s else s)
  else if sendOk then
    { s with processing := true
             outstanding := s.outstanding + 1
             framesSent := s.framesSent + 1 }
  else s

/-- startDetectionInterval: arm the interval and connect if not connected. -/
def stepStartInterval (s : DetState) : DetState :=
  let s1 := { s with intervalActive := true }
  if s1.connected = false then connectWS s1 else s1

/-- ws.onopen: handshake done, reset the attempt counter, log. -/
def stepOpen (now : Nat) (s : DetState) : DetState :=
  if s.wsConn = WsSt.connecting then
    { s with wsConn := WsSt.opened
             connected := true
             attempts := 0
             backendLogs := pushH MAX_LOGS s.backendLogs
               [{ text := "[INFO] WebSocket connected", timestamp := now }] }
  else s

/-- ws.onmessage: dispatch on the `type` tag.  A `result` appends backend
logs, appends non-empty detection batches to the bounded histories, replaces
or clears the current-frame slots, and clears the processing flag; an `error`
appends a log entry and clears the flag; other tags do nothing. -/
def stepRecv (m : InMsg) (now : Nat) (s : DetState) : DetState :=
  match m with
  | InMsg.connected => s
  | InMsg.pong => s
  | InMsg.unknown => s
  | InMsg.error msg =>
      { s with backendLogs := pushH MAX_LOGS s.backendLogs
                 [{ text := "[ERROR] " ++ msg, timestamp := now }]
               processing := false
               outstanding := 0 }
  | InMsg.result logs yolo ocr =>
      let s1 :=
        match logs with
        | some ls =>
            { s with backendLogs := pushH MAX_LOGS s.backendLogs
                       (ls.map (fun t => { text := t, timestamp := now })) }
        | none => s
      let s2 :=
        if yolo = [] then { s1 with currentDets := [] }
        else
          { s1 with detections := pushH MAX_DETECTIONS s1.detections
                      (yolo.map (fun p => { payload := p, timestamp := now }))
                    currentDets := yolo }
      let s3 :=
        if ocr = [] then { s2 with currentOcr := [] }
        else
          { s2 with ocrDetections := pushH MAX_OCR_DETECTIONS s2.ocrDetections
                      (ocr.map (fun p => { payload := p, timestamp := now }))
                    currentOcr := ocr }
      { s3 with processing := false, outstanding := 0 }

/-- The reconnect announcement log text built in ws.onclose. -/
def reconnectLogText (delay k : Nat) : String :=
  "[INFO] Attempting to reconnect in " ++ toString (delay / 1000)
    ++ "s (attempt " ++ toString k ++ "/" ++ toString maxReconnectAttempts ++ ")"

/-- The fatal log text appended once the attempt cap is exhausted. -/
def fatalLogText : String :=
  "[ERROR] Max reconnection attempts reached. Please refresh the page."

/-- One if a retry setTimeout handle is currently tracked by
reconnectTimeoutRef (so that overwriting the ref leaks it), zero otherwise. -/
def leakInc : Option Nat → Nat
  | some _ => 1
  | none => 0

/-- ws.onclose: drop the socket; on an abnormal code with attempts below the
cap, bump the counter and schedule a retry at `reconnectDelay * attempts`.
The source assigns the new setTimeout handle into reconnectTimeoutRef
without a clearTimeout, so a retry timer that was still pending is leaked:
it keeps running untracked. Once the cap is reached the fatal log entry is
appended and nothing is scheduled. -/
def stepClose (code now : Nat) (s : DetState) : DetState :=
  let s0 := { s with connected := false, wsConn := WsSt.closed }
  if code ≠ 1000 ∧ s.attempts < maxReconnectAttempts then
    let k := s.attempts + 1
    let delay := reconnectDelay * k
    { s0 with attempts := k
              retryTimer := some delay
              leakedTimers := s0.leakedTimers + leakInc s.retryTimer
              schedCount := s0.schedCount + 1
              backendLogs := pushH MAX_LOGS s0.backendLogs
                [{ text := reconnectLogText delay k, timestamp := now }] }
  else if maxReconnectAttempts ≤ s.attempts then
    { s0 with backendLogs := pushH MAX_LOGS s0.backendLogs
                [{ text := fatalLogText, timestamp := now }] }
  else s0

/-- The tracked reconnect setTimeout firing: consume the timer, call
connectWebSocket. -/
def stepRetryFire (s : DetState) : DetState :=
  match s.retryTimer with
  | some _ => connectWS { s with retryTimer := none }
  | none => s

/-- A leaked (no longer tracked) reconnect setTimeout firing: its callback
is `() => connectWebSocket()` with no stopped-flag check, so it connects
unconditionally whenever the socket is not open. -/
def stepLeakedRetryFire (s : DetState) : DetState :=
  if s.leakedTimers = 0 then s
  else connectWS { s with leakedTimers := s.leakedTimers - 1 }

/-- track.onended: unless the camera was explicitly stopped, flag the error
and schedule the 1 s recovery setTimeout. -/
def stepTrackEnded (s : DetState) : DetState :=
  if s.camStopped = false then
    { s with camStreaming := false, camRestartTimer := true }
  else s

/-- the video element error handler: flag the error and schedule the 1 s
recovery setTimeout (the stopped check happens when the timer fires). -/
def stepTrackError (s : DetState) : DetState :=
  { s with camStreaming := false, camRestartTimer := true }

/-- The camera-recovery setTimeout firing: re-select the device, which
re-runs the auto-start effect only when the stopped flag is still clear. -/
def stepCamRestartFire (s : DetState) : DetState :=
  if s.camRestartTimer then
    let s0 := { s with camRestartTimer := false }
    if s0.camStopped = false then
      { s0 with camStartCalls := s0.camStartCalls + 1, camStreaming := true }
    else s0
  else s

/-- Explicit stop: stopCamera (set the stopped flag, release tracks), then
stopDetectionInterval (clear the interval), then disconnectWebSocket, which
clears only the reconnect setTimeout currently tracked by
reconnectTimeoutRef and closes the socket with code 1000; retry timers that
were leaked by an overwriting ws.onclose are not cancelled. -/
def stepStop (s : DetState) : DetState :=
  let s1 := { s with camStopped := true, camStreaming := false }
  let s2 := { s1 with intervalActive := false }
  { s2 with retryTimer := none
            lastCloseIssued :=
              if s2.wsConn ≠ WsSt.closed then some 1000 else s2.lastCloseIssued
            wsConn := WsSt.closed
            connected := false }

/-- One event-loop step. -/
def step (e : Ev) (s : DetState) : DetState :=
  match e with
  | Ev.tick v k => stepTick v k s
  | Ev.startInterval => stepStartInterval s
  | Ev.wsOpen now => stepOpen now s
  | Ev.recv m now => stepRecv m now s
  | Ev.wsClose code now => stepClose code now s
  | Ev.retryFire => stepRetryFire s
  | Ev.leakedRetryFire => stepLeakedRetryFire s
  | Ev.trackEnded => stepTrackEnded s
  | Ev.trackError => stepTrackError s
  | Ev.camRestartFire => stepCamRestartFire s
  | Ev.userStop => stepStop s

/-- Run a sequence of events. -/
def run (evs : List Ev) (s : DetState) : DetState :=
  evs.foldl (fun t e => step e t) s

/-- The single-flight invariant carried through every run. -/
def InvSF (s : DetState) : Prop :=
  s.outstanding ≤ 1 ∧ (s.outstanding = 1 → s.processing = true)

/-- `n` consecutive abnormal closes (code 1006). -/
def abnCloses : Nat → List Ev
  | 0 => []
  | n + 1 => Ev.wsClose 1006 0 :: abnCloses n

/-! ### The unified event timeline (DetectionTerminal.jsx) -/

/-- The source category of a timeline event. -/
inductive EvKind where
  | log : EvKind
  | yolo : EvKind
  | ocr : EvKind
deriving Repr, DecidableEq

/-- One entry of the unified event list built by DetectionTerminal. -/
structure TEvent where
  kind : EvKind
  timestamp : Nat
  data : String
deriving Repr, DecidableEq

/-- The concatenated event list in the order DetectionTerminal pushes it:
all logs, then all YOLO detections, then all OCR detections, each source in
its own (arrival) order. -/
def toEvents (logs : List LogEntry) (dets ocrs : List Timed) : List TEvent :=
  logs.map (fun l => { kind := EvKind.log, timestamp := l.timestamp, data := l.text })
    ++ dets.map (fun d => { kind := EvKind.yolo, timestamp := d.timestamp, data := d.payload })
    ++ ocrs.map (fun d => { kind := EvKind.ocr, timestamp := d.timestamp, data := d.payload })

/-- Stable insertion into a run sorted by timestamp: the new element goes in
front of the first element with a timestamp not smaller than its own. -/
def insertEvent (e : TEvent) : List TEvent → List TEvent
  | [] => [e]
  | f :: rest =>
      if e.timestamp ≤ f.timestamp then e :: f :: rest
      else f :: insertEvent e rest

/-- The stable sort `events.sort((a, b) => a.timestamp - b.timestamp)`
(Array.prototype.sort is stable per the ECMAScript specification). -/
def sortEvents : List TEvent → List TEvent
  | [] => []
  | e :: rest => insertEvent e (sortEvents rest)

/-- unifiedEvents from DetectionTerminal.jsx: push logs, YOLO detections and
OCR detections, then sort by timestamp ascending with a stable sort. -/
def unifiedEvents (logs : List LogEntry) (dets ocrs : List Timed) : List TEvent :=
  sortEvents (toEvents logs dets ocrs)

/-- An example state with non-empty detection histories, used by witnesses. -/
def exampleWithHistories : DetState :=
  { initState with
    detections := [{ payload := "person", timestamp := 1 }]
    ocrDetections := [{ payload := "stop", timestamp := 2 }] }

/-! ### Lemmas about bounded histories -/

theorem length_sliceLast_le (n : Nat) (l : List α) : (sliceLast n l).length ≤ n := by
  simp only [sliceLast, List.length_drop]
  omega

theorem sliceLast_nil (n : Nat) : sliceLast n ([] : List α) = [] := by
  simp [sliceLast]

theorem pushH_sliceLast (n : Nat) (a b : List α) :
    pushH n (sliceLast n a) b = sliceLast n (a ++ b) := by
  unfold pushH sliceLast
  rw [List.drop_append_eq_append_drop, List.drop_append_eq_append_drop, List.drop_drop]
  simp only [List.length_append, List.length_drop]
  congr 2 <;> omega

theorem foldl_pushH (n : Nat) (batches : List (List α)) (a : List α) :
    batches.foldl (pushH n) (sliceLast n a) = sliceLast n (a ++ batches.flatten) := by
  induction batches generalizing a with
  | nil => simp
  | cons b bs ih =>
      simp only [List.foldl_cons, List.flatten_cons]
      rw [pushH_sliceLast, ih (a ++ b), List.append_assoc]

theorem foldl_pushH_nil (n : Nat) (batches : List (List α)) :
    batches.foldl (pushH n) [] = sliceLast n batches.flatten := by
  have h := foldl_pushH n batches []
  simpa [sliceLast_nil] using h

theorem getLast?_pushH_singleton (cap : Nat) (hc : 1 ≤ cap) (prev : List α) (x : α) :
    (pushH cap prev [x]).getLast? = some x := by
  unfold pushH sliceLast
  rw [List.drop_append_eq_append_drop]
  have h : (prev ++ [x]).length - cap - prev.length = 0 := by
    simp only [List.length_append, List.length_cons, List.length_nil]
    omega
  rw [h, List.drop_zero]
  exact List.getLast?_concat _

/-! ### Lemmas about the unified timeline sort -/

theorem mem_insertEvent {e x : TEvent} {l : List TEvent}
    (h : x ∈ insertEvent e l) : x = e ∨ x ∈ l := by
  induction l with
  | nil => simpa [insertEvent] using h
  | cons f rest ih =>
      by_cases hc : e.timestamp ≤ f.timestamp
      · simp only [insertEvent, if_pos hc] at h
        rcases List.mem_cons.mp h with h1 | h1
        · exact Or.inl h1
        · exact Or.inr h1
      · simp only [insertEvent, if_neg hc] at h
        rcases List.mem_cons.mp h with h1 | h1
        · exact Or.inr (h1 ▸ List.mem_cons_self _ _)
        · rcases ih h1 with h2 | h2
          · exact Or.inl h2
          · exact Or.inr (List.mem_cons_of_mem _ h2)

theorem pairwise_insertEvent (e : TEvent) {l : List TEvent}
    (h : l.Pairwise (fun a b => a.timestamp ≤ b.timestamp)) :
    (insertEvent e l).Pairwise (fun a b => a.timestamp ≤ b.timestamp) := by
  induction l with
  | nil => simp [insertEvent]
  | cons f rest ih =>
      rcases List.pairwise_cons.mp h with ⟨hf, hrest⟩
      by_cases hc : e.timestamp ≤ f.timestamp
      · simp only [insertEvent, if_pos hc]
        refine List.pairwise_cons.mpr ⟨?_, h⟩
        intro x hx
        rcases List.mem_cons.mp hx with rfl | hx
        · exact hc
        · exact Nat.le_trans hc (hf x hx)
      · simp only [insertEvent, if_neg hc]
        refine List.pairwise_cons.mpr ⟨?_, ih hrest⟩
        intro x hx
        rcases mem_insertEvent hx with rfl | hx
        · omega
        · exact hf x hx

theorem pairwise_sortEvents (l : List TEvent) :
    (sortEvents l).Pairwise (fun a b => a.timestamp ≤ b.timestamp) := by
  induction l with
  | nil => simp [sortEvents]
  | cons e rest ih => exact pairwise_insertEvent e ih

theorem filter_insertEvent (t : Nat) (e : TEvent) (l : List TEvent) :
    (insertEvent e l).filter (fun x => x.timestamp == t)
      = ((e :: l).filter (fun x => x.timestamp == t)) := by
  induction l with
  | nil => rfl
  | cons f rest ih =>
      by_cases hc : e.timestamp ≤ f.timestamp
      · simp only [insertEvent, if_pos hc]
      · simp only [insertEvent, if_neg hc]
        rw [List.filter_cons, List.filter_cons, ih, List.filter_cons, List.filter_cons]
        by_cases he : e.timestamp = t
        · have hfne : ¬ f.timestamp = t := by omega
          simp [he, hfne]
        · simp [he]

theorem filter_sortEvents (t : Nat) (l : List TEvent) :
    (sortEvents l).filter (fun x => x.timestamp == t)
      = l.filter (fun x => x.timestamp == t) := by
  induction l with
  | nil => rfl
  | cons e rest ih =>
      rw [sortEvents, filter_insertEvent, List.filter_cons, List.filter_cons, ih]

theorem length_insertEvent (e : TEvent) (l : List TEvent) :
    (insertEvent e l).length = l.length + 1 := by
  induction l with
  | nil => rfl
  | cons f rest ih =>
      by_cases hc : e.timestamp ≤ f.timestamp
      · simp [insertEvent, if_pos hc]
      · simp [insertEvent, if_neg hc, ih]

theorem length_sortEvents (l : List TEvent) : (sortEvents l).length = l.length := by
  induction l with
  | nil => rfl
  | cons e rest ih => rw [sortEvents, length_insertEvent, ih, List.length_cons]

/-! ### Lemmas about the detection state machine -/

theorem invSF_step (e : Ev) (s : DetState) (h : InvSF s) : InvSF (step e s) := by
  obtain ⟨h1, h2⟩ := h
  cases e with
  | tick v k =>
      show InvSF (stepTick v k s)
      unfold stepTick connectWS
      split_ifs with g1 g2 g3 g4 g5 g6
      all_goals try exact ⟨h1, h2⟩
      have hz : s.outstanding = 0 := by
        cases Nat.eq_zero_or_pos s.outstanding with
        | inl h0 => exact h0
        | inr hp => exact absurd (h2 (by omega)) g2
      refine ⟨?_, fun _ => rfl⟩
      show s.outstanding + 1 ≤ 1
      omega
  | startInterval =>
      show InvSF (stepStartInterval s)
      unfold stepStartInterval connectWS
      dsimp only
      split_ifs <;> exact ⟨h1, h2⟩
  | wsOpen now =>
      show InvSF (stepOpen now s)
      unfold stepOpen
      split_ifs <;> exact ⟨h1, h2⟩
  | recv m now =>
      show InvSF (stepRecv m now s)
      cases m with
      | connected => exact ⟨h1, h2⟩
      | pong => exact ⟨h1, h2⟩
      | unknown => exact ⟨h1, h2⟩
      | error msg => refine ⟨?_, ?_⟩ <;> simp [stepRecv]
      | result logs yolo ocr => refine ⟨?_, ?_⟩ <;> simp [stepRecv]
  | wsClose code now =>
      show InvSF (stepClose code now s)
      unfold stepClose
      split_ifs <;> exact ⟨h1, h2⟩
  | retryFire =>
      show InvSF (stepRetryFire s)
      unfold stepRetryFire connectWS
      rcases hrt : s.retryTimer with _ | d <;> simp only
      · exact ⟨h1, h2⟩
      · split_ifs <;> exact ⟨h1, h2⟩
  | leakedRetryFire =>
      show InvSF (stepLeakedRetryFire s)
      unfold stepLeakedRetryFire connectWS
      split_ifs <;> exact ⟨h1, h2⟩
  | trackEnded =>
      show InvSF (stepTrackEnded s)
      unfold stepTrackEnded
      split_ifs <;> exact ⟨h1, h2⟩
  | trackError => exact ⟨h1, h2⟩
  | camRestartFire =>
      show InvSF (stepCamRestartFire s)
      unfold stepCamRestartFire
      dsimp only
      split_ifs <;> exact ⟨h1, h2⟩
  | userStop => exact ⟨h1, h2⟩

theorem invSF_run (evs : List Ev) (s : DetState) (h : InvSF s) : InvSF (run evs s) := by
  induction evs generalizing s with
  | nil => exact h
  | cons e rest ih => exact ih (step e s) (invSF_step e s h)

theorem run_cons (e : Ev) (evs : List Ev) (s : DetState) :
    run (e :: evs) s = run evs (step e s) := rfl

theorem attempts_le_step (e : Ev) (s : DetState)
    (h : s.attempts ≤ maxReconnectAttempts) :
    (step e s).attempts ≤ maxReconnectAttempts := by
  cases e with
  | tick v k =>
      simp only [step]
      unfold stepTick connectWS
      split_ifs <;> exact h
  | startInterval =>
      simp only [step]
      unfold stepStartInterval connectWS
      dsimp only
      split_ifs <;> exact h
  | wsOpen now =>
      simp only [step]
      unfold stepOpen
      split_ifs
      · show (0 : Nat) ≤ maxReconnectAttempts
        omega
      · exact h
  | recv m now =>
      simp only [step]
      cases m with
      | connected => exact h
      | pong => exact h
      | unknown => exact h
      | error msg => exact h
      | result logs yolo ocr =>
          unfold stepRecv
          cases logs <;> dsimp only <;> split_ifs <;> exact h
  | wsClose code now =>
      simp only [step]
      unfold stepClose
      dsimp only
      split_ifs with g1 g2
      · show s.attempts + 1 ≤ maxReconnectAttempts
        have := g1.2
        omega
      · exact h
      · exact h
  | retryFire =>
      simp only [step]
      unfold stepRetryFire connectWS
      rcases hrt : s.retryTimer with _ | d <;> simp only
      · exact h
      · split_ifs <;> exact h
  | leakedRetryFire =>
      simp only [step]
      unfold stepLeakedRetryFire connectWS
      split_ifs <;> exact h
  | trackEnded =>
      simp only [step]
      unfold stepTrackEnded
      split_ifs <;> exact h
  | trackError => exact h
  | camRestartFire =>
      simp only [step]
      unfold stepCamRestartFire
      dsimp only
      split_ifs <;> exact h
  | userStop => exact h

theorem attempts_le_run (evs : List Ev) (s : DetState)
    (h : s.attempts ≤ maxReconnectAttempts) :
    (run evs s).attempts ≤ maxReconnectAttempts := by
  induction evs generalizing s with
  | nil => exact h
  | cons e rest ih => exact ih (step e s) (attempts_le_step e s h)

theorem abnCloses_sched (n : Nat) (s : DetState)
    (h : s.attempts ≤ maxReconnectAttempts) :
    (run (abnCloses n) s).schedCount
        = s.schedCount + min n (maxReconnectAttempts - s.attempts)
      ∧ (run (abnCloses n) s).attempts = min (s.attempts + n) maxReconnectAttempts := by
  induction n generalizing s with
  | zero =>
      constructor
      · show s.schedCount = s.schedCount + min 0 (maxReconnectAttempts - s.attempts)
        omega
      · show s.attempts = min (s.attempts + 0) maxReconnectAttempts
        omega
  | succ n ih =>
      rw [abnCloses, run_cons]
      by_cases hlt : s.attempts < maxReconnectAttempts
      · have hstep : (step (Ev.wsClose 1006 0) s).schedCount = s.schedCount + 1
            ∧ (step (Ev.wsClose 1006 0) s).attempts = s.attempts + 1 := by
          simp only [step]
          unfold stepClose
          dsimp only
          rw [if_pos ⟨by omega, hlt⟩]
          exact ⟨rfl, rfl⟩
        obtain ⟨ih1, ih2⟩ := ih (step (Ev.wsClose 1006 0) s) (by rw [hstep.2]; omega)
        rw [ih1, ih2, hstep.1, hstep.2]
        constructor <;> omega
      · have hstep : (step (Ev.wsClose 1006 0) s).schedCount = s.schedCount
            ∧ (step (Ev.wsClose 1006 0) s).attempts = s.attempts := by
          simp only [step]
          unfold stepClose
          dsimp only
          rw [if_neg (fun hh => hlt hh.2), if_pos (by omega)]
          exact ⟨rfl, rfl⟩
        obtain ⟨ih1, ih2⟩ := ih (step (Ev.wsClose 1006 0) s) (by rw [hstep.2]; omega)
        rw [ih1, ih2, hstep.1, hstep.2]
        constructor <;> omega

theorem framesSent_step (e : Ev) (s : DetState) :
    (step e s).framesSent = s.framesSent
  ∨ ((step e s).processing = true ∧ s.processing = false) := by
  cases e with
  | tick v k =>
      simp only [step]
      unfold stepTick connectWS
      split_ifs with g1 g2 g3 g4 g5 g6 g7 <;>
        first
          | exact Or.inl rfl
          | exact Or.inr ⟨rfl, by simpa using g2⟩
  | startInterval =>
      simp only [step]
      unfold stepStartInterval connectWS
      dsimp only
      split_ifs <;> exact Or.inl rfl
  | wsOpen now =>
      simp only [step]
      unfold stepOpen
      split_ifs <;> exact Or.inl rfl
  | recv m now =>
      simp only [step]
      cases m with
      | connected => exact Or.inl rfl
      | pong => exact Or.inl rfl
      | unknown => exact Or.inl rfl
      | error msg => exact Or.inl rfl
      | result logs yolo ocr =>
          unfold stepRecv
          cases logs <;> dsimp only <;> split_ifs <;> exact Or.inl rfl
  | wsClose code now =>
      simp only [step]
      unfold stepClose
      dsimp only
      split_ifs <;> exact Or.inl rfl
  | retryFire =>
      simp only [step]
      unfold stepRetryFire connectWS
      rcases hrt : s.retryTimer with _ | d <;> simp only
      · exact Or.inl trivial
      · split_ifs <;> exact Or.inl rfl
  | leakedRetryFire =>
      simp only [step]
      unfold stepLeakedRetryFire connectWS
      split_ifs <;> exact Or.inl rfl
  | trackEnded =>
      simp only [step]
      unfold stepTrackEnded
      split_ifs <;> exact Or.inl rfl
  | trackError => exact Or.inl rfl
  | camRestartFire =>
      simp only [step]
      unfold stepCamRestartFire
      dsimp only
      split_ifs <;> exact Or.inl rfl
  | userStop => exact Or.inl rfl

/-! ### Claim theorems -/

/-- C1: Single-flight submission: over every sequence of timer ticks and
channel callbacks, the number of outstanding (sent-but-not-resolved) frames
is at most one; a tick whose processing flag is already set does nothing at
all (in particular sends nothing); whenever a tick sends a frame the flag is
set by that same tick and was clear before it; and the flag is cleared by a
step only when that step is the arrival of a result or error message from
the channel, never by the send call returning. -/
theorem c1_single_flight :
    (∀ evs : List Ev, (run evs initState).outstanding ≤ 1)
  ∧ (∀ (s : DetState) (v k : Bool), s.processing = true → step (Ev.tick v k) s = s)
  ∧ (∀ (s : DetState) (e : Ev), (step e s).framesSent ≠ s.framesSent →
        (step e s).processing = true ∧ s.processing = false)
  ∧ (∀ (s : DetState) (e : Ev), s.processing = true → (step e s).processing = false →
        (∃ now logs yolo ocr, e = Ev.recv (InMsg.result logs yolo ocr) now)
      ∨ (∃ now msg, e = Ev.recv (InMsg.error msg) now)) := by
  refine ⟨?_, ?_, ?_, ?_⟩
  · intro evs
    exact (invSF_run evs initState ⟨by decide, by decide⟩).1
  · intro s v k hp
    simp only [step]
    unfold stepTick
    split_ifs with g1 g2 g3 g4 g5 g6 g7 <;> first | rfl | exact absurd hp g2
  · intro s e hne
    rcases framesSent_step e s with h | h
    · exact absurd h hne
    · exact h
  · intro s e hp hcl
    cases e with
    | tick v k =>
        exfalso
        have hs : step (Ev.tick v k) s = s := by
          simp only [step]
          unfold stepTick
          split_ifs with g1 g2 g3 g4 g5 g6 g7 <;> first | rfl | exact absurd hp g2
        rw [hs, hp] at hcl
        exact absurd hcl (by decide)
    | startInterval =>
        exfalso
        have hpr : (step Ev.startInterval s).processing = s.processing := by
          simp only [step]
          unfold stepStartInterval connectWS
          dsimp only
          split_ifs <;> rfl
        rw [hpr, hp] at hcl
        exact absurd hcl (by decide)
    | wsOpen now =>
        exfalso
        have hpr : (step (Ev.wsOpen now) s).processing = s.processing := by
          simp only [step]
          unfold stepOpen
          split_ifs <;> rfl
        rw [hpr, hp] at hcl
        exact absurd hcl (by decide)
    | recv m now =>
        cases m with
        | connected =>
            exfalso
            rw [show (step (Ev.recv InMsg.connected now) s).processing = s.processing from rfl,
               hp] at hcl
            exact absurd hcl (by decide)
        | pong =>
            exfalso
            rw [show (step (Ev.recv InMsg.pong now) s).processing = s.processing from rfl,
               hp] at hcl
            exact absurd hcl (by decide)
        | unknown =>
            exfalso
            rw [show (step (Ev.recv InMsg.unknown now) s).processing = s.processing from rfl,
               hp] at hcl
            exact absurd hcl (by decide)
        | error msg => exact Or.inr ⟨now, msg, rfl⟩
        | result logs yolo ocr => exact Or.inl ⟨now, logs, yolo, ocr, rfl⟩
    | wsClose code now =>
        exfalso
        have hpr : (step (Ev.wsClose code now) s).processing = s.processing := by
          simp only [step]
          unfold stepClose
          dsimp only
          split_ifs <;> rfl
        rw [hpr, hp] at hcl
        exact absurd hcl (by decide)
    | retryFire =>
        exfalso
        have hpr : (step Ev.retryFire s).processing = s.processing := by
          simp only [step]
          unfold stepRetryFire connectWS
          rcases hrt : s.retryTimer with _ | d
          · rfl
          · split_ifs <;> rfl
        rw [hpr, hp] at hcl
        exact absurd hcl (by decide)
    | leakedRetryFire =>
        exfalso
        have hpr : (step Ev.leakedRetryFire s).processing = s.processing := by
          simp only [step]
          unfold stepLeakedRetryFire connectWS
          split_ifs <;> rfl
        rw [hpr, hp] at hcl
        exact absurd hcl (by decide)
    | trackEnded =>
        exfalso
        have hpr : (step Ev.trackEnded s).processing = s.processing := by
          simp only [step]
          unfold stepTrackEnded
          split_ifs <;> rfl
        rw [hpr, hp] at hcl
        exact absurd hcl (by decide)
    | trackError =>
        exfalso
        rw [show (step Ev.trackError s).processing = s.processing from rfl, hp] at hcl
        exact absurd hcl (by decide)
    | camRestartFire =>
        exfalso
        have hpr : (step Ev.camRestartFire s).processing = s.processing := by
          simp only [step]
          unfold stepCamRestartFire
          dsimp only
          split_ifs <;> rfl
        rw [hpr, hp] at hcl
        exact absurd hcl (by decide)
    | userStop =>
        exfalso
        rw [show (step Ev.userStop s).processing = s.processing from rfl, hp] at hcl
        exact absurd hcl (by decide)

/-- C1 witness: a concrete run (arm the interval, open the socket, one tick,
one result) keeps at most one frame outstanding, and a tick in a state whose
processing flag is set leaves the state untouched. -/
theorem c1_single_flight_witness :
    (run [Ev.startInterval, Ev.wsOpen 1, Ev.tick true true,
          Ev.recv (InMsg.result none ["person"] []) 2] initState).outstanding ≤ 1
  ∧ step (Ev.tick true true) { initState with processing := true }
      = { initState with processing := true } := by
  constructor
  · exact c1_single_flight.1 _
  · exact c1_single_flight.2.1 { initState with processing := true } true true rfl

/-- C2: Reconnect backoff: an abnormal close (code other than 1000) arriving
with k prior consecutive attempts (k below the cap) schedules the (k+1)-st
reconnect after reconnectDelay * (k+1) milliseconds; a close with code 1000
schedules no reconnect and leaves the attempt counter alone; and a successful
open transition resets the attempt counter to zero immediately. -/
theorem c2_reconnect_backoff :
    (∀ (s : DetState) (code now : Nat), code ≠ 1000 → s.attempts < maxReconnectAttempts →
        (step (Ev.wsClose code now) s).retryTimer = some (reconnectDelay * (s.attempts + 1))
      ∧ (step (Ev.wsClose code now) s).attempts = s.attempts + 1)
  ∧ (∀ (s : DetState) (now : Nat),
        (step (Ev.wsClose 1000 now) s).retryTimer = s.retryTimer
      ∧ (step (Ev.wsClose 1000 now) s).attempts = s.attempts)
  ∧ (∀ (s : DetState) (now : Nat), s.wsConn = WsSt.connecting →
        (step (Ev.wsOpen now) s).attempts = 0) := by
  refine ⟨?_, ?_, ?_⟩
  · intro s code now hcode hlt
    simp only [step]
    unfold stepClose
    dsimp only
    rw [if_pos ⟨hcode, hlt⟩]
    exact ⟨rfl, rfl⟩
  · intro s now
    simp only [step]
    unfold stepClose
    dsimp only
    rw [if_neg (fun hh => hh.1 rfl)]
    split_ifs <;> exact ⟨rfl, rfl⟩
  · intro s now h
    simp only [step]
    unfold stepOpen
    rw [if_pos h]

/-- C2 witness: with one prior attempt, an abnormal close (code 1006)
schedules the second reconnect after 6000 ms, and an open transition from the
connecting state resets the counter to zero. -/
theorem c2_reconnect_backoff_witness :
    ((step (Ev.wsClose 1006 7) { initState with attempts := 1 }).retryTimer = some 6000
      ∧ (step (Ev.wsClose 1006 7) { initState with attempts := 1 }).attempts = 2)
  ∧ (step (Ev.wsOpen 3) { initState with wsConn := WsSt.connecting }).attempts = 0 := by
  constructor
  · have h := c2_reconnect_backoff.1 { initState with attempts := 1 } 1006 7
      (by decide) (by decide)
    simpa [reconnectDelay] using h
  · exact c2_reconnect_backoff.2.2 { initState with wsConn := WsSt.connecting } 3 rfl

/-- C3: Bounded history: for each of the three histories (logs capped at 100,
object detections capped at 50, text detections capped at 50), folding the
per-message update `[...prev, ...batch].slice(-cap)` over any sequence of
insertion batches leaves at most cap entries, and the retained entries are
exactly the most recent cap insertions in insertion order (the suffix of the
concatenated insertion sequence). -/
theorem c3_bounded_history {α β γ : Type} (logBatches : List (List α))
    (detBatches : List (List β)) (ocrBatches : List (List γ)) :
    ((logBatches.foldl (pushH MAX_LOGS) []).length ≤ MAX_LOGS
      ∧ logBatches.foldl (pushH MAX_LOGS) [] = sliceLast MAX_LOGS logBatches.flatten)
  ∧ ((detBatches.foldl (pushH MAX_DETECTIONS) []).length ≤ MAX_DETECTIONS
      ∧ detBatches.foldl (pushH MAX_DETECTIONS) []
          = sliceLast MAX_DETECTIONS detBatches.flatten)
  ∧ ((ocrBatches.foldl (pushH MAX_OCR_DETECTIONS) []).length ≤ MAX_OCR_DETECTIONS
      ∧ ocrBatches.foldl (pushH MAX_OCR_DETECTIONS) []
          = sliceLast MAX_OCR_DETECTIONS ocrBatches.flatten) := by
  refine ⟨⟨?_, ?_⟩, ⟨?_, ?_⟩, ⟨?_, ?_⟩⟩ <;> rw [foldl_pushH_nil] <;>
    first
      | exact length_sliceLast_le _ _
      | rfl

/-- C4 counterexample: in the refactored overlay path (useCanvasDrawing with
scaleAndFlipX), a box with source x1=100, x2=200 in a 1280-wide source on a
640-wide display with flipHorizontal=false does NOT render at x1'=540 and
x2'=590 as the claim states: the computed x1' is 590. -/
theorem c4_counterexample :
    ¬ ((drawBoxesTransform { x1 := 100, y1 := 50, x2 := 200, y2 := 150 }
          (calculateScaleFactors 640 360 1280 720).1
          (calculateScaleFactors 640 360 1280 720).2 640 false).x1 = 540
      ∧ (drawBoxesTransform { x1 := 100, y1 := 50, x2 := 200, y2 := 150 }
          (calculateScaleFactors 640 360 1280 720).1
          (calculateScaleFactors 640 360 1280 720).2 640 false).x2 = 590) := by
  intro h
  have h1 := h.1
  norm_num [drawBoxesTransform, scaleAndFlipX, calculateScaleFactors] at h1

/-- C4 (amended): for the scenario box (x1=100, x2=200, y1=50, y2=150) in a
1280x720 source on a 640x360 display with flipHorizontal=false, the
refactored overlay (useCanvasDrawing via scaleAndFlipX) mirrors each x
endpoint individually without swapping, rendering x1'=590, x2'=540 (so
x1' is greater than x2' and the drawn width is negative), while the legacy
monolithic drawBoxes swaps the mirrored endpoints and renders x1'=540,
x2'=590; in both versions y1'=25 and y2'=75. -/
theorem c4_mirror_scenario :
    drawBoxesTransform { x1 := 100, y1 := 50, x2 := 200, y2 := 150 }
        (calculateScaleFactors 640 360 1280 720).1
        (calculateScaleFactors 640 360 1280 720).2 640 false
      = { x1 := 590, y1 := 25, x2 := 540, y2 := 75 }
  ∧ drawBoxesTransformLegacy { x1 := 100, y1 := 50, x2 := 200, y2 := 150 }
        (calculateScaleFactors 640 360 1280 720).1
        (calculateScaleFactors 640 360 1280 720).2 640 false
      = { x1 := 540, y1 := 25, x2 := 590, y2 := 75 } := by
  constructor <;>
    · simp [drawBoxesTransform, drawBoxesTransformLegacy, scaleAndFlipX,
        calculateScaleFactors, DispBox.mk.injEq]
      norm_num

/-- C5 (code bug demonstration): a retry timer leaked by ws.onclose fires
and reconnects after stop(). Trace from a fresh session: the interval is
armed and socket A created; A closes abnormally, scheduling retry timer T1;
an interval tick finds the socket gone and reconnects (socket B); B closes
abnormally while T1 is still pending, so ws.onclose assigns a new setTimeout
T2 into reconnectTimeoutRef without a clearTimeout and T1 leaks; stop() then
sets the stopped flag, clears the interval and cancels only the tracked T2.
After the stop the camera-stopped flag is set, the tracked retry timer is
none, two connections have been created, and one leaked timer is still
pending; when the leaked T1 fires, its callback calls connectWebSocket
unconditionally and a third connection is created after the stop —
contradicting the claim that no further reconnect attempt occurs and that
stop cancels any pending retry timer. -/
theorem c5_leaked_retry_reconnects_after_stop :
    (run [Ev.startInterval, Ev.wsClose 1006 0, Ev.tick true true, Ev.wsClose 1006 1,
          Ev.userStop] initState).camStopped = true
  ∧ (run [Ev.startInterval, Ev.wsClose 1006 0, Ev.tick true true, Ev.wsClose 1006 1,
          Ev.userStop] initState).retryTimer = none
  ∧ (run [Ev.startInterval, Ev.wsClose 1006 0, Ev.tick true true, Ev.wsClose 1006 1,
          Ev.userStop] initState).leakedTimers = 1
  ∧ (run [Ev.startInterval, Ev.wsClose 1006 0, Ev.tick true true, Ev.wsClose 1006 1,
          Ev.userStop] initState).connectCalls = 2
  ∧ (run [Ev.startInterval, Ev.wsClose 1006 0, Ev.tick true true, Ev.wsClose 1006 1,
          Ev.userStop, Ev.leakedRetryFire] initState).connectCalls = 3 := by
  refine ⟨rfl, rfl, rfl, rfl, rfl⟩

/-- C6: Bounded retry with fatal surfacing: an abnormal close arriving after
the 5 reconnect attempts are consumed appends the fatal user-visible log
entry as the newest log line, schedules no retry and does not grow the
scheduled-retry count; the attempt counter never exceeds 5 on any run; and a
run of n consecutive abnormal closes from a fresh counter schedules exactly
min n 5 retries — never a sixth. -/
theorem c6_bounded_retry :
    (∀ (s : DetState) (code now : Nat), code ≠ 1000 → s.attempts = maxReconnectAttempts →
        (step (Ev.wsClose code now) s).backendLogs.getLast?
            = some { text := fatalLogText, timestamp := now }
      ∧ (step (Ev.wsClose code now) s).retryTimer = s.retryTimer
      ∧ (step (Ev.wsClose code now) s).schedCount = s.schedCount)
  ∧ (∀ (evs : List Ev) (s : DetState), s.attempts ≤ maxReconnectAttempts →
        (run evs s).attempts ≤ maxReconnectAttempts)
  ∧ (∀ (n : Nat) (s : DetState), s.attempts = 0 →
        (run (abnCloses n) s).schedCount = s.schedCount + min n maxReconnectAttempts) := by
  refine ⟨?_, ?_, ?_⟩
  · intro s code now hcode hat
    simp only [step]
    unfold stepClose
    dsimp only
    rw [if_neg (fun hh => absurd hh.2 (by omega)), if_pos (by omega)]
    exact ⟨getLast?_pushH_singleton _ (by decide) _ _, rfl, rfl⟩
  · intro evs s h
    exact attempts_le_run evs s h
  · intro n s h0
    have h' := (abnCloses_sched n s (by omega)).1
    rw [h0] at h'
    simpa using h'

/-- C6 witness: with the counter exhausted at 5, an abnormal close (1006)
surfaces the fatal log entry as the newest line, and seven consecutive
abnormal closes from a fresh state schedule exactly five retries. -/
theorem c6_bounded_retry_witness :
    (step (Ev.wsClose 1006 3) { initState with attempts := 5 }).backendLogs.getLast?
        = some { text := fatalLogText, timestamp := 3 }
  ∧ (run (abnCloses 7) initState).schedCount = 5 := by
  constructor
  · exact (c6_bounded_retry.1 { initState with attempts := 5 } 1006 3 (by decide) rfl).1
  · have h := c6_bounded_retry.2.2 7 initState rfl
    rw [h]
    decide

/-- C7: Timeline merge ordering: for every contents of the three histories,
the unified event list of DetectionTerminal is sorted by timestamp ascending;
the sort is stable — for each timestamp value, the events carrying it appear
exactly in the order they occupy in the concatenated source feed (logs, then
object detections, then text detections, each in its own arrival order) —
and the merge applies no additional length cap: the merged length is the sum
of the three source lengths. -/
theorem c7_timeline_merge (logs : List LogEntry) (dets ocrs : List Timed) :
    (unifiedEvents logs dets ocrs).Pairwise (fun a b => a.timestamp ≤ b.timestamp)
  ∧ (∀ t : Nat, (unifiedEvents logs dets ocrs).filter (fun x => x.timestamp == t)
        = (toEvents logs dets ocrs).filter (fun x => x.timestamp == t))
  ∧ (unifiedEvents logs dets ocrs).length = logs.length + dets.length + ocrs.length := by
  refine ⟨pairwise_sortEvents _, fun t => filter_sortEvents t _, ?_⟩
  rw [unifiedEvents, length_sortEvents, toEvents]
  simp [List.length_append]
  omega

/-- C8 counterexample: the outbound frame message has no field named
"kind" at all — its tag field is named "type" — so the claimed wire shape
is false on the code. -/
theorem c8_counterexample :
    ¬ ((frameMessage "abc").lookup "kind" = some "frame") := by
  decide

/-- C8 (amended): every frame submitted over the detection channel is a JSON
message whose tag field is named "type" with value "frame" and whose "image"
field carries the encoded image string — the object has no "kind" field. -/
theorem c8_outbound_format (img : String) :
    (frameMessage img).lookup "type" = some "frame"
  ∧ (frameMessage img).lookup "image" = some img
  ∧ (frameMessage img).lookup "kind" = none := by
  refine ⟨?_, ?_, ?_⟩ <;> simp [frameMessage, List.lookup]

/-- C9 counterexample: applying scaleAndFlipX (with flipImage=false) twice
with the same display width 640 and scale factor 1/2 does not return the
original coordinate: starting from 0 it yields 320. -/
theorem c9_counterexample :
    ¬ (scaleAndFlipX (scaleAndFlipX 0 (1 / 2) 640 false) (1 / 2) 640 false = 0) := by
  norm_num [scaleAndFlipX]

/-- C9 (amended): the pure mirror reflection — scaleAndFlipX with
flipImage=false and unit scale factor — is an involution: applying it twice
with the same display width returns the original coordinate exactly; with a
scale factor other than 1 the double application differs from the identity,
as the counterexample shows. -/
theorem c9_mirror_involution (x videoDisplayWidth : ℚ) :
    scaleAndFlipX (scaleAndFlipX x 1 videoDisplayWidth false) 1 videoDisplayWidth false = x := by
  simp [scaleAndFlipX]

/-- C10: Empty-result frame effect: a result message whose object-detection
list is empty clears the current-frame detections and leaves the accumulated
detection history untouched, and independently a result whose OCR list is
empty clears the current-frame OCR detections and leaves the OCR history
untouched — so each history grows only on non-empty results. -/
theorem c10_empty_result (s : DetState) (logs : Option (List String))
    (yolo ocr : List String) (now : Nat) :
    (yolo = [] →
        (step (Ev.recv (InMsg.result logs yolo ocr) now) s).currentDets = []
      ∧ (step (Ev.recv (InMsg.result logs yolo ocr) now) s).detections = s.detections)
  ∧ (ocr = [] →
        (step (Ev.recv (InMsg.result logs yolo ocr) now) s).currentOcr = []
      ∧ (step (Ev.recv (InMsg.result logs yolo ocr) now) s).ocrDetections
          = s.ocrDetections) := by
  constructor
  · intro hy
    subst hy
    simp only [step]
    unfold stepRecv
    cases logs <;> dsimp only <;> split_ifs <;>
      first
        | exact ⟨rfl, rfl⟩
        | exact absurd rfl (by assumption)
  · intro ho
    subst ho
    simp only [step]
    unfold stepRecv
    cases logs <;> dsimp only <;> split_ifs <;>
      first
        | exact ⟨rfl, rfl⟩
        | exact absurd rfl (by assumption)

/-- C10 witness: delivering a result with empty detection lists to a state
holding non-empty histories clears both current-frame slots and leaves both
histories unchanged. -/
theorem c10_empty_result_witness :
    ((step (Ev.recv (InMsg.result (some ["l1"]) [] []) 9) exampleWithHistories).currentDets = []
      ∧ (step (Ev.recv (InMsg.result (some ["l1"]) [] []) 9) exampleWithHistories).detections
          = exampleWithHistories.detections)
  ∧ ((step (Ev.recv (InMsg.result (some ["l1"]) [] []) 9) exampleWithHistories).currentOcr = []
      ∧ (step (Ev.recv (InMsg.result (some ["l1"]) [] []) 9) exampleWithHistories).ocrDetections
          = exampleWithHistories.ocrDetections) := by
  have h := c10_empty_result exampleWithHistories (some ["l1"]) [] [] 9
  exact ⟨h.1 rfl, h.2 rfl⟩

end SmartGlasses
